import Mathlib

/-!
Shallow embedding of the PITR schema-catalog tracker (`pitr/ddl.go`).

The Go code mutates a `map[string]*model.DBInfo` in place and talks to an
external scratch TiDB engine through `database/sql`.  Here the catalog map is
an association list passed and returned explicitly, the scratch engine is a
parameter (a state type together with transition/introspection functions), and
fallible operations return `Except`/`Option` values.  Machine integers (table
IDs) are modelled as `Int`; strings as Lean `String`.
-/

set_option autoImplicit false

namespace PITR

/-- Substring test on the character lists of two strings, mirroring Go's
`strings.Contains(s, pat)`: `charsStartWith` is the "pat is a leading run"
check and `charsContain` slides it over every suffix. -/
def charsStartWith : List Char → List Char → Bool
  | _, [] => true
  | [], _ :: _ => false
  | c :: cs, p :: ps => c == p && charsStartWith cs ps

/-- Membership of `pat` as a contiguous run inside `s`, on character lists. -/
def charsContain : List Char → List Char → Bool
  | [], pat => pat.isEmpty
  | c :: cs, pat => charsStartWith (c :: cs) pat || charsContain cs pat

/-- Go `strings.Contains s pat`. -/
def strContains (s pat : String) : Bool := charsContain s.data pat.data

/-- Lifecycle state of a schema object, `model.SchemaState` from the TiDB
model package (the values the code inspects plus the intermediate ones). -/
inductive SchemaState
  | stateNone
  | stateDeleteOnly
  | stateWriteOnly
  | stateWriteReorganization
  | stateDeleteReorganization
  | statePublic
  deriving DecidableEq, Repr

/-- DDL action kind, `model.ActionType`: the kinds named in
`AccelerateHistoryDDLs` plus a few that exist in the model package but are
outside both enumerated sets (they reach the `default` branch). -/
inductive ActionType
  | actionCreateSchema
  | actionModifySchemaCharsetAndCollate
  | actionDropSchema
  | actionCreateTable
  | actionCreateView
  | actionDropTable
  | actionDropView
  | actionDropTablePartition
  | actionTruncateTablePartition
  | actionAddColumn
  | actionDropColumn
  | actionModifyColumn
  | actionSetDefaultValue
  | actionAddIndex
  | actionDropIndex
  | actionRenameIndex
  | actionAddForeignKey
  | actionDropForeignKey
  | actionTruncateTable
  | actionRebaseAutoID
  | actionRenameTable
  | actionShardRowID
  | actionModifyTableComment
  | actionAddTablePartition
  | actionModifyTableCharsetAndCollate
  | actionRecoverTable
  | actionNone
  | actionAddTablePlacement
  | actionLockTable
  | actionUnlockTable
  deriving DecidableEq, Repr

/-- Case-insensitive string as carried by TiDB metadata (`model.CIStr`):
`o` is the original spelling, `l` the lowercased one. -/
structure CIStr where
  o : String
  l : String
  deriving DecidableEq, Repr

/-- Table metadata carried by an event (`model.TableInfo`), restricted to the
fields the code reads: stable `id`, `name` and lifecycle `state`. -/
structure TableInfoModel where
  id : Int
  name : CIStr
  state : SchemaState
  deriving DecidableEq, Repr

/-- Database metadata carried by an event (`model.DBInfo`), restricted to the
fields the code reads. -/
structure DBInfoModel where
  name : CIStr
  state : SchemaState
  tables : List TableInfoModel
  deriving DecidableEq, Repr

/-- State of a DDL job in the change log (`model.JobState`). -/
inductive JobState
  | jobNone
  | running
  | rollingback
  | rollbackDone
  | done
  | cancelled
  | cancelling
  | synced
  deriving DecidableEq, Repr

/-- One admitted change-log event (`model.Job`), flattened: `dbInfo` and
`tableInfo` stand for `job.BinlogInfo.DBInfo` / `job.BinlogInfo.TableInfo`. -/
structure Job where
  tp : ActionType
  schemaName : String
  state : JobState
  dbInfo : DBInfoModel
  tableInfo : TableInfoModel
  deriving DecidableEq, Repr

/-- Go `job.IsSynced()`: the job state equals `synced`. -/
def isSynced (j : Job) : Bool := j.state = JobState.synced

/-- Go `job.IsDone()`: the job state equals `done`. -/
def isDone (j : Job) : Bool := j.state = JobState.done

/-- Job filter from `ddl.go`: `skipJob` rejects a job unless it is synced or
done. -/
def skipJob (job : Job) : Bool := !isSynced job && !isDone job

/-- Case normalization of a schema name, Go's `strings.ToLower` (the names
in play are ASCII; the lowering is written over the character list so that it
evaluates by kernel reduction). -/
def toLowerStr (s : String) : String := ⟨s.data.map Char.toLower⟩

/-- Modelled from the spec: `quoteDB` is defined in a file of this repository
outside `src/pitr`; the spec says the accelerator map is keyed by the
case-normalized name alone, so the (injective) quoting wrapper is modelled as
the identity on the key. -/
def quoteDB (name : String) : String := name

/-- Association-list lookup, the read of Go's `d.lastDBInfoMap[k]`. -/
def mapLookup {κ α : Type} [DecidableEq κ] (m : List (κ × α)) (k : κ) : Option α :=
  match m with
  | [] => Option.none
  | e :: rest => if e.1 = k then some e.2 else mapLookup rest k

/-- Association-list insert-or-overwrite, Go's `m[k] = v`. -/
def mapInsert {κ α : Type} [DecidableEq κ] (m : List (κ × α)) (k : κ) (v : α) :
    List (κ × α) :=
  match m with
  | [] => [(k, v)]
  | e :: rest => if e.1 = k then (k, v) :: rest else e :: mapInsert rest k v

/-- Association-list update of an existing key, modelling Go's in-place
mutation through the `*model.DBInfo` pointer obtained from a lookup (a miss
leaves the map unchanged; the code only reaches it after a successful
lookup). -/
def mapSet {κ α : Type} [DecidableEq κ] (m : List (κ × α)) (k : κ) (v : α) :
    List (κ × α) :=
  match m with
  | [] => []
  | e :: rest => if e.1 = k then (k, v) :: rest else e :: mapSet rest k v

/-- Association-list deletion, Go's `delete(m, k)`. -/
def mapErase {κ α : Type} [DecidableEq κ] (m : List (κ × α)) (k : κ) :
    List (κ × α) :=
  match m with
  | [] => []
  | e :: rest => if e.1 = k then rest else e :: mapErase rest k

/-- The accelerator's catalog, Go's `lastDBInfoMap map[string]*model.DBInfo`. -/
abbrev Catalog : Type := List (String × DBInfoModel)

/-- Errors produced by `AccelerateHistoryDDLs` (the Go code formats them as
strings; they are kept structured here). -/
inductive AccErr
  | schemaNotFound (schemaName : String)
  | unknownTableState (s : SchemaState)
  | unknownDDLAction (tp : ActionType)
  deriving DecidableEq, Repr

/-- Membership of an action kind in the first `case` of the `switch` in
`AccelerateHistoryDDLs` (schema-level events). -/
def isSchemaLevelAction : ActionType → Bool
  | .actionCreateSchema => true
  | .actionModifySchemaCharsetAndCollate => true
  | .actionDropSchema => true
  | _ => false

/-- Membership of an action kind in the second `case` of the `switch` in
`AccelerateHistoryDDLs` (table-level events). -/
def isTableLevelAction : ActionType → Bool
  | .actionCreateTable => true
  | .actionCreateView => true
  | .actionDropTable => true
  | .actionDropView => true
  | .actionDropTablePartition => true
  | .actionTruncateTablePartition => true
  | .actionAddColumn => true
  | .actionDropColumn => true
  | .actionModifyColumn => true
  | .actionSetDefaultValue => true
  | .actionAddIndex => true
  | .actionDropIndex => true
  | .actionRenameIndex => true
  | .actionAddForeignKey => true
  | .actionDropForeignKey => true
  | .actionTruncateTable => true
  | .actionRebaseAutoID => true
  | .actionRenameTable => true
  | .actionShardRowID => true
  | .actionModifyTableComment => true
  | .actionAddTablePartition => true
  | .actionModifyTableCharsetAndCollate => true
  | .actionRecoverTable => true
  | _ => false

/-- Loop body of the `statePublic` table case: scan `Tables`, overwrite the
first entry with the event's table ID and stop; if none matches, append the
new table at the end. -/
def substituteTable (ts : List TableInfoModel) (newT : TableInfoModel) :
    List TableInfoModel :=
  match ts with
  | [] => [newT]
  | t :: rest =>
    if t.id = newT.id then newT :: rest else t :: substituteTable rest newT

/-- Loop body of the `stateNone` table case: scan `Tables`, drop the first
entry with the dropped table's ID and stop; if none matches, the code logs a
warning and leaves the list unchanged. -/
def removeTable (ts : List TableInfoModel) (tid : Int) : List TableInfoModel :=
  match ts with
  | [] => []
  | t :: rest => if t.id = tid then rest else t :: removeTable rest tid

/-- Go `AccelerateHistoryDDLs`: dispatch on the job's action kind and the
resulting lifecycle state, returning the catalog after the in-place mutations
together with the optional error.  The two schema-level `if` statements are
sequential in the source and are translated sequentially. -/
def AccelerateHistoryDDLs (m : Catalog) (job : Job) : Catalog × Option AccErr :=
  if isSchemaLevelAction job.tp then
    let m1 := if job.dbInfo.state = SchemaState.statePublic then
        mapInsert m (quoteDB job.dbInfo.name.l) job.dbInfo
      else m
    let m2 := if job.dbInfo.state = SchemaState.stateNone then
        mapErase m1 (quoteDB job.dbInfo.name.l)
      else m1
    (m2, Option.none)
  else if isTableLevelAction job.tp then
    if job.tableInfo.state = SchemaState.statePublic then
      match mapLookup m (quoteDB (toLowerStr job.schemaName)) with
      | Option.none => (m, some (AccErr.schemaNotFound job.schemaName))
      | some v =>
        (mapSet m (quoteDB (toLowerStr job.schemaName))
          { v with tables := substituteTable v.tables job.tableInfo },
         Option.none)
    else if job.tableInfo.state = SchemaState.stateNone then
      match mapLookup m (quoteDB (toLowerStr job.schemaName)) with
      | Option.none => (m, some (AccErr.schemaNotFound job.schemaName))
      | some v =>
        (mapSet m (quoteDB (toLowerStr job.schemaName))
          { v with tables := removeTable v.tables job.tableInfo.id },
         Option.none)
    else (m, some (AccErr.unknownTableState job.tableInfo.state))
  else (m, some (AccErr.unknownDDLAction job.tp))

/-- Rows of the `_inter_map_` table, in insertion order: `(curKey, srcKey)`
pairs, with `curKey` declared `unique` by `createMapTable`. -/
abbrev IntervalMap : Type := List (String × String)

/-- Go `fetchMapKeyFromDB`: `SELECT srcKey FROM _inter_map_ WHERE curKey = key`
followed by a single `Scan`; when no row matches, the scan error is swallowed
and the empty string is returned. -/
def fetchMapKeyFromDB (tbl : IntervalMap) (key : String) : String :=
  match tbl with
  | [] => ""
  | r :: rest => if r.1 = key then r.2 else fetchMapKeyFromDB rest key

/-- Existence of a row whose `curKey` column equals `k` (the column the
`unique` constraint of `_inter_map_` guards). -/
def hasCurKey (tbl : IntervalMap) (k : String) : Bool :=
  match tbl with
  | [] => false
  | r :: rest => r.1 = k || hasCurKey rest k

/-- Go `insertMapKeyFromDB`: fetch any existing mapping for `oldKey`; if one
is found (non-empty), insert `(newKey, that target)`, otherwise insert
`(newKey, oldKey)`.  The engine's `unique` constraint on `curKey` makes the
`INSERT` fail when `newKey` is already present. -/
def insertMapKeyFromDB (tbl : IntervalMap) (newKey oldKey : String) :
    Except String IntervalMap :=
  let s := fetchMapKeyFromDB tbl oldKey
  let row := if s ≠ "" then (newKey, s) else (newKey, oldKey)
  if hasCurKey tbl newKey then Except.error "Duplicate entry"
  else Except.ok (tbl ++ [row])

/-- Errors surfaced by the oracle-adapter path of `ddl.go`. -/
inductive DdlError
  | tableNotExist
  | unknownDDLType
  | invalidDDL
  | parseErr (msg : String)
  | execErr (msg : String)
  | outOfFuel
  deriving DecidableEq, Repr

/-- Unique-index structure (`indexInfo` in `ddl.go`). -/
structure indexInfo where
  name : String
  columns : List String
  deriving DecidableEq, Repr

/-- Derived table structure handed to downstream consumers (`tableInfo` in
`ddl.go`). -/
structure tableInfo where
  schema : String
  table : String
  columns : List String
  primaryKey : Option indexInfo
  uniqueKeys : List indexInfo
  deriving DecidableEq, Repr

/-- Predicate of the generated-column skip in `getColsOfTbl`: the `extra`
column of the row mentions `VIRTUAL GENERATED` or `STORED GENERATED`. -/
def isGeneratedRow (r : String × String) : Bool :=
  strContains r.2 "VIRTUAL GENERATED" || strContains r.2 "STORED GENERATED"

/-- Go `getColsOfTbl` applied to the rows `(column_name, extra)` the columns
view returns: keep non-generated column names in row order; an empty result
means the table does not exist. -/
def getColsOfTbl (rows : List (String × String)) : Except DdlError (List String) :=
  let cols := rows.foldl
    (fun acc r => if isGeneratedRow r then acc else acc ++ [r.1]) []
  if cols = [] then Except.error DdlError.tableNotExist else Except.ok cols

/-- Inner loop of `getUniqKeys`: append `colName` to the first index named
`keyName`, or start a new index group at the end. -/
def addIndexColumn (uks : List indexInfo) (keyName colName : String) :
    List indexInfo :=
  match uks with
  | [] => [⟨keyName, [colName]⟩]
  | u :: rest =>
    if u.name = keyName then { u with columns := u.columns ++ [colName] } :: rest
    else u :: addIndexColumn rest keyName colName

/-- Go `getUniqKeys` applied to the rows
`(non_unique, index_name, seq_in_index, column_name)` of the statistics view
(already in ascending `seq_in_index` order, as the SQL orders them): skip
non-unique rows, group the rest by index name. -/
def getUniqKeys (rows : List (Nat × String × Nat × String)) : List indexInfo :=
  rows.foldl
    (fun uks r => if r.1 = 1 then uks else addIndexColumn uks r.2.1 r.2.2.2) []

/-- Index of the first entry named `PRIMARY`, the search performed by the
fix-up loop in `getTableInfo`. -/
def firstPrimaryIdx : List indexInfo → Option Nat
  | [] => Option.none
  | u :: rest =>
    if u.name = "PRIMARY" then some 0 else (firstPrimaryIdx rest).map (· + 1)

/-- Fix-up loop of `getTableInfo`: swap the first index named `PRIMARY` with
position 0 and expose it as the primary key. -/
def placePrimary (uks : List indexInfo) : Option indexInfo × List indexInfo :=
  match firstPrimaryIdx uks with
  | Option.none => (Option.none, uks)
  | some i =>
    match uks[i]?, uks[0]? with
    | some a, some b => (some a, (uks.set i b).set 0 a)
    | _, _ => (Option.none, uks)

/-- Go `getTableInfo`, with the two introspection queries replaced by their
row lists: derive the column list, the unique keys, and the primary-key
fix-up. -/
def getTableInfo (colRows : List (String × String))
    (statRows : List (Nat × String × Nat × String))
    (schema table : String) : Except DdlError tableInfo :=
  match getColsOfTbl colRows with
  | Except.error e => Except.error e
  | Except.ok cols =>
    let uks := getUniqKeys statRows
    let pr := placePrimary uks
    Except.ok ⟨schema, table, cols, pr.1, pr.2⟩

/-- Index of the first table entry carrying the stable ID `tid`, the search
order of the loops in the table-level cases (a specification device for the
theorems below). -/
def firstIdxTable : List TableInfoModel → Int → Option Nat
  | [], _ => Option.none
  | t :: rest, tid =>
    if t.id = tid then some 0 else (firstIdxTable rest tid).map (· + 1)

theorem tableLevel_not_schemaLevel (tp : ActionType)
    (h : isTableLevelAction tp = true) : isSchemaLevelAction tp = false := by
  cases tp <;> simp_all [isSchemaLevelAction, isTableLevelAction]

theorem firstIdxTable_none_iff (ts : List TableInfoModel) (tid : Int) :
    firstIdxTable ts tid = Option.none ↔ ∀ t ∈ ts, t.id ≠ tid := by
  induction ts with
  | nil => simp [firstIdxTable]
  | cons t rest ih =>
    by_cases ht : t.id = tid
    · simp [firstIdxTable, ht]
    · simp [firstIdxTable, ht, Option.map_eq_none', ih]

theorem substituteTable_append (ts : List TableInfoModel) (n : TableInfoModel)
    (h : ∀ t ∈ ts, t.id ≠ n.id) : substituteTable ts n = ts ++ [n] := by
  induction ts with
  | nil => simp [substituteTable]
  | cons t rest ih =>
    have ht : t.id ≠ n.id := h t (List.mem_cons_self t rest)
    simp only [substituteTable, if_neg ht, List.cons_append, List.cons.injEq,
      true_and]
    exact ih fun t' ht' => h t' (List.mem_cons_of_mem t ht')

theorem substituteTable_replace (ts : List TableInfoModel)
    (n : TableInfoModel) (j : Nat) (h : firstIdxTable ts n.id = some j) :
    (substituteTable ts n).length = ts.length
    ∧ (substituteTable ts n)[j]? = some n
    ∧ ∀ k, k ≠ j → (substituteTable ts n)[k]? = ts[k]? := by
  induction ts generalizing j with
  | nil => simp [firstIdxTable] at h
  | cons t rest ih =>
    simp only [firstIdxTable] at h
    by_cases ht : t.id = n.id
    · rw [if_pos ht] at h
      obtain rfl : (0 : Nat) = j := Option.some.inj h
      refine ⟨by simp [substituteTable, ht], by simp [substituteTable, ht], ?_⟩
      intro k hk
      obtain ⟨k', rfl⟩ := Nat.exists_eq_succ_of_ne_zero hk
      simp [substituteTable, ht]
    · rw [if_neg ht] at h
      cases hfr : firstIdxTable rest n.id with
      | none => rw [hfr] at h; simp at h
      | some j' =>
        rw [hfr] at h
        obtain rfl : j' + 1 = j := Option.some.inj h
        obtain ⟨hl, hg, ho⟩ := ih j' hfr
        refine ⟨by simp [substituteTable, ht, hl], by simp [substituteTable, ht, hg], ?_⟩
        intro k hk
        cases k with
        | zero => simp [substituteTable, ht]
        | succ k' =>
          have hk' : k' ≠ j' := fun hc => hk (by simp [hc])
          simp [substituteTable, ht, ho k' hk']

/-- Claim C1: for an admitted table-level event whose table state is
`statePublic`, a missing (lowercased) schema key fails with the
schema-not-found error and leaves the map unchanged; otherwise the schema's
table list is rewritten by `substituteTable`, which overwrites the first entry
carrying the event's stable ID in place (all other positions unchanged) and
appends the event's table at the end when no entry carries that ID. -/
theorem accelerate_tablePublic_upsert (m : Catalog) (job : Job)
    (_hadm : skipJob job = false)
    (hT : isTableLevelAction job.tp = true)
    (hS : job.tableInfo.state = SchemaState.statePublic) :
    (mapLookup m (quoteDB (toLowerStr job.schemaName)) = Option.none →
      AccelerateHistoryDDLs m job = (m, some (AccErr.schemaNotFound job.schemaName)))
    ∧ ∀ v, mapLookup m (quoteDB (toLowerStr job.schemaName)) = some v →
        AccelerateHistoryDDLs m job =
          (mapSet m (quoteDB (toLowerStr job.schemaName))
            { v with tables := substituteTable v.tables job.tableInfo },
           Option.none)
        ∧ (firstIdxTable v.tables job.tableInfo.id = Option.none ↔
            ∀ t ∈ v.tables, t.id ≠ job.tableInfo.id)
        ∧ (firstIdxTable v.tables job.tableInfo.id = Option.none →
            substituteTable v.tables job.tableInfo = v.tables ++ [job.tableInfo])
        ∧ ∀ j, firstIdxTable v.tables job.tableInfo.id = some j →
            (substituteTable v.tables job.tableInfo).length = v.tables.length
            ∧ (substituteTable v.tables job.tableInfo)[j]? = some job.tableInfo
            ∧ ∀ k, k ≠ j →
                (substituteTable v.tables job.tableInfo)[k]? = v.tables[k]? := by
  have hSch := tableLevel_not_schemaLevel job.tp hT
  refine ⟨fun hnone => ?_, fun v hv => ?_⟩
  · simp [AccelerateHistoryDDLs, hSch, hT, hS, hnone]
  · refine ⟨by simp [AccelerateHistoryDDLs, hSch, hT, hS, hv],
      firstIdxTable_none_iff _ _,
      fun hn => substituteTable_append _ _ ((firstIdxTable_none_iff _ _).mp hn),
      fun j hj => substituteTable_replace _ _ j hj⟩

/-- Claim C1 witness: a concrete catalog holding schema `db` with tables of
IDs 1 and 2; an admitted public `create table` event with ID 2 replaces the
second entry in place, keeping the sibling at position 0. -/
theorem accelerate_tablePublic_upsert_witness :
    skipJob ⟨ActionType.actionCreateTable, "db", JobState.done,
        ⟨⟨"db", "db"⟩, SchemaState.statePublic, []⟩,
        ⟨2, ⟨"t2", "t2"⟩, SchemaState.statePublic⟩⟩ = false
    ∧ isTableLevelAction ActionType.actionCreateTable = true
    ∧ AccelerateHistoryDDLs
        [("db", ⟨⟨"db", "db"⟩, SchemaState.statePublic,
          [⟨1, ⟨"t1", "t1"⟩, SchemaState.statePublic⟩,
           ⟨2, ⟨"told", "told"⟩, SchemaState.statePublic⟩]⟩)]
        ⟨ActionType.actionCreateTable, "db", JobState.done,
          ⟨⟨"db", "db"⟩, SchemaState.statePublic, []⟩,
          ⟨2, ⟨"t2", "t2"⟩, SchemaState.statePublic⟩⟩ =
      ([("db", ⟨⟨"db", "db"⟩, SchemaState.statePublic,
          [⟨1, ⟨"t1", "t1"⟩, SchemaState.statePublic⟩,
           ⟨2, ⟨"t2", "t2"⟩, SchemaState.statePublic⟩]⟩)], Option.none) := by
  refine ⟨by decide, by decide, ?_⟩
  have h := (accelerate_tablePublic_upsert
    [("db", ⟨⟨"db", "db"⟩, SchemaState.statePublic,
      [⟨1, ⟨"t1", "t1"⟩, SchemaState.statePublic⟩,
       ⟨2, ⟨"told", "told"⟩, SchemaState.statePublic⟩]⟩)]
    ⟨ActionType.actionCreateTable, "db", JobState.done,
      ⟨⟨"db", "db"⟩, SchemaState.statePublic, []⟩,
      ⟨2, ⟨"t2", "t2"⟩, SchemaState.statePublic⟩⟩
    (by decide) (by decide) (by decide)).2
    ⟨⟨"db", "db"⟩, SchemaState.statePublic,
      [⟨1, ⟨"t1", "t1"⟩, SchemaState.statePublic⟩,
       ⟨2, ⟨"told", "told"⟩, SchemaState.statePublic⟩]⟩ (by decide)
  exact h.1.trans (by decide)

/-- Claim C3: for an admitted event whose action kind is in neither
enumerated set, `AccelerateHistoryDDLs` returns the unknown-DDL-action error
and the catalog it was given, unchanged. -/
theorem accelerate_unknownAction_frame (m : Catalog) (job : Job)
    (_hadm : skipJob job = false)
    (h1 : isSchemaLevelAction job.tp = false)
    (h2 : isTableLevelAction job.tp = false) :
    AccelerateHistoryDDLs m job = (m, some (AccErr.unknownDDLAction job.tp)) := by
  simp [AccelerateHistoryDDLs, h1, h2]

/-- Claim C3 witness: a done `lock table` event (outside both sets) against a
one-schema catalog errors and leaves the catalog unchanged. -/
theorem accelerate_unknownAction_frame_witness :
    skipJob ⟨ActionType.actionLockTable, "db", JobState.done,
        ⟨⟨"db", "db"⟩, SchemaState.statePublic, []⟩,
        ⟨1, ⟨"t", "t"⟩, SchemaState.statePublic⟩⟩ = false
    ∧ AccelerateHistoryDDLs
        [("db", ⟨⟨"db", "db"⟩, SchemaState.statePublic, []⟩)]
        ⟨ActionType.actionLockTable, "db", JobState.done,
          ⟨⟨"db", "db"⟩, SchemaState.statePublic, []⟩,
          ⟨1, ⟨"t", "t"⟩, SchemaState.statePublic⟩⟩ =
      ([("db", ⟨⟨"db", "db"⟩, SchemaState.statePublic, []⟩)],
       some (AccErr.unknownDDLAction ActionType.actionLockTable)) :=
  ⟨by decide,
   accelerate_unknownAction_frame
     [("db", ⟨⟨"db", "db"⟩, SchemaState.statePublic, []⟩)]
     ⟨ActionType.actionLockTable, "db", JobState.done,
       ⟨⟨"db", "db"⟩, SchemaState.statePublic, []⟩,
       ⟨1, ⟨"t", "t"⟩, SchemaState.statePublic⟩⟩
     (by decide) (by decide) (by decide)⟩

/-- Claim C10: an admitted schema-level event whose database state is an
intermediate one (neither public nor none) succeeds and leaves the map
unchanged, whereas a table-level event with an intermediate table state is an
unknown-table-state error. -/
theorem accelerate_schemaIntermediate_noop (m : Catalog) (job : Job)
    (_hadm : skipJob job = false)
    (h1 : isSchemaLevelAction job.tp = true)
    (h2 : job.dbInfo.state ≠ SchemaState.statePublic)
    (h3 : job.dbInfo.state ≠ SchemaState.stateNone) :
    AccelerateHistoryDDLs m job = (m, Option.none)
    ∧ ∀ job2 : Job, isTableLevelAction job2.tp = true →
        job2.tableInfo.state ≠ SchemaState.statePublic →
        job2.tableInfo.state ≠ SchemaState.stateNone →
        AccelerateHistoryDDLs m job2 =
          (m, some (AccErr.unknownTableState job2.tableInfo.state)) := by
  constructor
  · simp [AccelerateHistoryDDLs, h1, h2, h3]
  · intro job2 hT hS1 hS2
    have hSch := tableLevel_not_schemaLevel job2.tp hT
    simp [AccelerateHistoryDDLs, hSch, hT, hS1, hS2]

/-- Claim C10 witness: a done `create schema` event still in `write only`
state is a no-op on a concrete catalog, and the corresponding table-level
event errors. -/
theorem accelerate_schemaIntermediate_noop_witness :
    skipJob ⟨ActionType.actionCreateSchema, "db", JobState.done,
        ⟨⟨"db", "db"⟩, SchemaState.stateWriteOnly, []⟩,
        ⟨1, ⟨"t", "t"⟩, SchemaState.statePublic⟩⟩ = false
    ∧ (AccelerateHistoryDDLs [] ⟨ActionType.actionCreateSchema, "db", JobState.done,
        ⟨⟨"db", "db"⟩, SchemaState.stateWriteOnly, []⟩,
        ⟨1, ⟨"t", "t"⟩, SchemaState.statePublic⟩⟩ = ([], Option.none)
      ∧ ∀ job2 : Job, isTableLevelAction job2.tp = true →
          job2.tableInfo.state ≠ SchemaState.statePublic →
          job2.tableInfo.state ≠ SchemaState.stateNone →
          AccelerateHistoryDDLs [] job2 =
            ([], some (AccErr.unknownTableState job2.tableInfo.state))) :=
  ⟨by decide,
   accelerate_schemaIntermediate_noop []
     ⟨ActionType.actionCreateSchema, "db", JobState.done,
       ⟨⟨"db", "db"⟩, SchemaState.stateWriteOnly, []⟩,
       ⟨1, ⟨"t", "t"⟩, SchemaState.statePublic⟩⟩
     (by decide) (by decide) (by decide) (by decide)⟩

theorem fetch_of_not_hasCurKey (tbl : IntervalMap) (k : String)
    (h : hasCurKey tbl k = false) : fetchMapKeyFromDB tbl k = "" := by
  induction tbl with
  | nil => rfl
  | cons r rest ih =>
    simp only [hasCurKey, Bool.or_eq_false_iff, decide_eq_false_iff_not] at h
    simp [fetchMapKeyFromDB, h.1, ih h.2]

theorem fetch_append_of_not_hasCurKey (t1 t2 : IntervalMap) (k : String)
    (h : hasCurKey t1 k = false) :
    fetchMapKeyFromDB (t1 ++ t2) k = fetchMapKeyFromDB t2 k := by
  induction t1 with
  | nil => rfl
  | cons r rest ih =>
    simp only [hasCurKey, Bool.or_eq_false_iff, decide_eq_false_iff_not] at h
    simp [fetchMapKeyFromDB, h.1, ih h.2]

theorem hasCurKey_append (t1 t2 : IntervalMap) (k : String) :
    hasCurKey (t1 ++ t2) k = (hasCurKey t1 k || hasCurKey t2 k) := by
  induction t1 with
  | nil => rfl
  | cons r rest ih => simp [hasCurKey, ih, Bool.or_assoc]

/-- Claim C2 counterexample: with the map initially empty, `insert(K1, K0)`
then `insert(K2, K1)` stores `K2 → K0` (the insert resolves one hop through
the existing `K1 → K0` row), so `fetch(K2)` returns `K0` and not `K1`. -/
theorem intervalMapper_fetch_counterexample :
    insertMapKeyFromDB [] "k1" "k0" = Except.ok [("k1", "k0")]
    ∧ insertMapKeyFromDB [("k1", "k0")] "k2" "k1" =
        Except.ok [("k1", "k0"), ("k2", "k0")]
    ∧ fetchMapKeyFromDB [("k1", "k0"), ("k2", "k0")] "k2" = "k0"
    ∧ fetchMapKeyFromDB [("k1", "k0"), ("k2", "k0")] "k2" ≠ "k1" := by
  refine ⟨rfl, rfl, rfl, by decide⟩

/-- Claim C2 (amended): starting from a state with no mapping for `K0`, `K1`
or `K2` (with `K0` non-empty and `K1 ≠ K2`), `insert(K1, K0)` followed by
`insert(K2, K1)` yields `fetch(K2) = K0`: the second insert collapses the
single prior substitution hop instead of storing `K2 → K1`. -/
theorem intervalMapper_insert_oneHop (tbl : IntervalMap) (k0 k1 k2 : String)
    (h0 : hasCurKey tbl k0 = false) (h1 : hasCurKey tbl k1 = false)
    (h2 : hasCurKey tbl k2 = false) (hk0 : k0 ≠ "") (h12 : k1 ≠ k2) :
    insertMapKeyFromDB tbl k1 k0 = Except.ok (tbl ++ [(k1, k0)])
    ∧ insertMapKeyFromDB (tbl ++ [(k1, k0)]) k2 k1 =
        Except.ok (tbl ++ [(k1, k0), (k2, k0)])
    ∧ fetchMapKeyFromDB (tbl ++ [(k1, k0), (k2, k0)]) k2 = k0 := by
  have e0 : fetchMapKeyFromDB tbl k0 = "" := fetch_of_not_hasCurKey tbl k0 h0
  have e1 : fetchMapKeyFromDB (tbl ++ [(k1, k0)]) k1 = k0 := by
    rw [fetch_append_of_not_hasCurKey tbl [(k1, k0)] k1 h1]
    simp [fetchMapKeyFromDB]
  have e2 : hasCurKey (tbl ++ [(k1, k0)]) k2 = false := by
    rw [hasCurKey_append]
    simp [hasCurKey, h2, h12]
  refine ⟨?_, ?_, ?_⟩
  · simp [insertMapKeyFromDB, e0, h1]
  · simp [insertMapKeyFromDB, e1, e2, hk0]
  · rw [fetch_append_of_not_hasCurKey tbl [(k1, k0), (k2, k0)] k2 h2]
    simp [fetchMapKeyFromDB, h12]

/-- Claim C2 witness for the amended statement, at the empty map and the
concrete keys of the counterexample. -/
theorem intervalMapper_insert_oneHop_witness :
    hasCurKey [] "k0" = false ∧ ("k0" : String) ≠ "" ∧ ("k1" : String) ≠ "k2"
    ∧ (insertMapKeyFromDB [] "k1" "k0" = Except.ok ([] ++ [("k1", "k0")])
      ∧ insertMapKeyFromDB ([] ++ [("k1", "k0")]) "k2" "k1" =
          Except.ok ([] ++ [("k1", "k0"), ("k2", "k0")])
      ∧ fetchMapKeyFromDB ([] ++ [("k1", "k0"), ("k2", "k0")]) "k2" = "k0") :=
  ⟨by decide, by decide, by decide,
   intervalMapper_insert_oneHop [] "k0" "k1" "k2" (by decide) (by decide)
     (by decide) (by decide) (by decide)⟩

/-- Spec-side reading of the column derivation: the names of the rows of the
columns view whose `extra` metadata marks neither virtual-generated nor
stored-generated, in view order. -/
def colsFromView (rows : List (String × String)) : List String :=
  (rows.filter (fun r => !isGeneratedRow r)).map Prod.fst

theorem getCols_foldl (rows : List (String × String)) (acc : List String) :
    rows.foldl (fun acc r => if isGeneratedRow r then acc else acc ++ [r.1]) acc
      = acc ++ colsFromView rows := by
  induction rows generalizing acc with
  | nil => simp [colsFromView]
  | cons r rest ih =>
    by_cases hg : isGeneratedRow r
    · simp [colsFromView, List.filter_cons, hg, ih]
    · simp only [Bool.not_eq_true] at hg
      simp [colsFromView, List.filter_cons, hg, ih]

/-- Claim C5: `getColsOfTbl` returns exactly the non-generated column names of
the view, in view order, and fails with `tableNotExist` when that filtered
list is empty. -/
theorem getColsOfTbl_spec (rows : List (String × String)) :
    getColsOfTbl rows =
      if colsFromView rows = [] then Except.error DdlError.tableNotExist
      else Except.ok (colsFromView rows) := by
  unfold getColsOfTbl
  rw [getCols_foldl rows []]
  simp

theorem firstPrimaryIdx_none_iff (l : List indexInfo) :
    firstPrimaryIdx l = Option.none ↔ ∀ k ∈ l, k.name ≠ "PRIMARY" := by
  induction l with
  | nil => simp [firstPrimaryIdx]
  | cons u rest ih =>
    by_cases hu : u.name = "PRIMARY"
    · simp [firstPrimaryIdx, hu]
    · simp [firstPrimaryIdx, hu, Option.map_eq_none', ih]

theorem firstPrimaryIdx_some (l : List indexInfo) (i : Nat)
    (h : firstPrimaryIdx l = some i) :
    ∃ a, l[i]? = some a ∧ a.name = "PRIMARY" := by
  induction l generalizing i with
  | nil => simp [firstPrimaryIdx] at h
  | cons u rest ih =>
    by_cases hu : u.name = "PRIMARY"
    · rw [firstPrimaryIdx, if_pos hu] at h
      obtain rfl : (0 : Nat) = i := Option.some.inj h
      exact ⟨u, by simp, hu⟩
    · rw [firstPrimaryIdx, if_neg hu] at h
      cases hfr : firstPrimaryIdx rest with
      | none => rw [hfr] at h; simp at h
      | some i' =>
        rw [hfr] at h
        obtain rfl : i' + 1 = i := Option.some.inj h
        obtain ⟨a, ha, hp⟩ := ih i' hfr
        exact ⟨a, by simpa using ha, hp⟩

theorem set_set_head {α : Type} (l : List α) (i : Nat) (a b : α)
    (h : l ≠ []) : ((l.set i b).set 0 a).head? = some a := by
  cases l with
  | nil => exact absurd rfl h
  | cons x xs => cases i <;> simp [List.set]

/-- Claim C4: whenever `getTableInfo` succeeds, an index literally named
`PRIMARY` among the retained unique keys ends up at position 0 and is exposed
as the primary key; with no such index the primary key is absent; and a
present primary key always equals `uniqueKeys[0]`. -/
theorem getTableInfo_primary_spec (colRows : List (String × String))
    (statRows : List (Nat × String × Nat × String)) (schema table : String)
    (info : tableInfo)
    (h : getTableInfo colRows statRows schema table = Except.ok info) :
    ((∃ k ∈ getUniqKeys statRows, k.name = "PRIMARY") →
      ∃ pk, info.primaryKey = some pk ∧ pk.name = "PRIMARY"
        ∧ pk ∈ getUniqKeys statRows ∧ info.uniqueKeys.head? = some pk)
    ∧ ((∀ k ∈ getUniqKeys statRows, k.name ≠ "PRIMARY") →
        info.primaryKey = Option.none)
    ∧ ∀ pk, info.primaryKey = some pk → info.uniqueKeys.head? = some pk := by
  unfold getTableInfo at h
  cases hc : getColsOfTbl colRows with
  | error e => rw [hc] at h; exact absurd h (by simp)
  | ok cols =>
    rw [hc] at h
    obtain rfl : (⟨schema, table, cols, (placePrimary (getUniqKeys statRows)).1,
        (placePrimary (getUniqKeys statRows)).2⟩ : tableInfo) = info :=
      Except.ok.inj h
    cases hf : firstPrimaryIdx (getUniqKeys statRows) with
    | none =>
      have hnone := (firstPrimaryIdx_none_iff _).mp hf
      refine ⟨fun hex => ?_, fun _ => by simp [placePrimary, hf], ?_⟩
      · obtain ⟨k, hk, hkp⟩ := hex
        exact absurd hkp (hnone k hk)
      · intro pk hpk
        simp [placePrimary, hf] at hpk
    | some i =>
      obtain ⟨a, ha, hap⟩ := firstPrimaryIdx_some _ i hf
      have hne : getUniqKeys statRows ≠ [] := by
        intro hnil
        rw [hnil] at ha
        simp at ha
      obtain ⟨b, hb⟩ : ∃ b, (getUniqKeys statRows)[0]? = some b := by
        cases hu : getUniqKeys statRows with
        | nil => exact absurd hu hne
        | cons x xs => exact ⟨x, by simp⟩
      have hpp : placePrimary (getUniqKeys statRows) =
          (some a, (((getUniqKeys statRows).set i b).set 0 a)) := by
        simp [placePrimary, hf, ha, hb]
      have hmem : a ∈ getUniqKeys statRows := by
        have hlt : i < (getUniqKeys statRows).length := by
          by_contra hge
          rw [List.getElem?_eq_none (Nat.le_of_not_lt hge)] at ha
          exact absurd ha (by simp)
        have := List.getElem?_eq_getElem hlt
        rw [this] at ha
        obtain rfl : (getUniqKeys statRows)[i] = a := Option.some.inj ha
        exact List.getElem_mem hlt
      refine ⟨fun _ => ⟨a, ?_, hap, hmem, ?_⟩, fun hall => ?_, fun pk hpk => ?_⟩
      · simp [hpp]
      · simp only [hpp]
        exact set_set_head _ i a b hne
      · exact absurd hap (hall a hmem)
      · have : pk = a := by
          simp [hpp] at hpk
          exact hpk.symm
        subst this
        simp only [hpp]
        exact set_set_head _ i pk b hne

/-- Claim C4 witness: a table with one plain column and two unique indexes,
`uk` listed before `PRIMARY` in the statistics view; derivation succeeds, the
`PRIMARY` index is swapped to position 0 and exposed as the primary key. -/
theorem getTableInfo_primary_spec_witness :
    getTableInfo [("id", "")] [(0, "uk", 1, "a"), (0, "PRIMARY", 1, "id")]
        "db" "t" =
      Except.ok ⟨"db", "t", ["id"], some ⟨"PRIMARY", ["id"]⟩,
        [⟨"PRIMARY", ["id"]⟩, ⟨"uk", ["a"]⟩]⟩
    ∧ ((∃ k ∈ getUniqKeys [(0, "uk", 1, "a"), (0, "PRIMARY", 1, "id")],
          k.name = "PRIMARY") →
        ∃ pk, (some (⟨"PRIMARY", ["id"]⟩ : indexInfo) = some pk)
          ∧ pk.name = "PRIMARY"
          ∧ pk ∈ getUniqKeys [(0, "uk", 1, "a"), (0, "PRIMARY", 1, "id")]
          ∧ ([⟨"PRIMARY", ["id"]⟩, ⟨"uk", ["a"]⟩] : List indexInfo).head? = some pk) := by
  constructor
  · rfl
  · have h := (getTableInfo_primary_spec [("id", "")]
      [(0, "uk", 1, "a"), (0, "PRIMARY", 1, "id")] "db" "t"
      ⟨"db", "t", ["id"], some ⟨"PRIMARY", ["id"]⟩,
        [⟨"PRIMARY", ["id"]⟩, ⟨"uk", ["a"]⟩]⟩ rfl).1
    exact h

/-- Statement shapes recognized by the `switch` in
`parserSchemaTableFromDDL`, as produced by the external SQL parser.  Optional
schema qualifiers are carried as plain strings with `""` for "absent",
matching the `len(...) != 0` tests of the source; `dropTable` carries the
whole table list of which only the first entry is read (the source marks this
with a FIXME).  `unrecognized` stands for every other statement shape the
parser can produce (the `default` branch). -/
inductive Stmt
  | useStmt (dbName : String)
  | createDatabase (name : String)
  | dropDatabase (name : String)
  | truncateTable (schemaO name : String)
  | createIndex (schemaO table : String)
  | createTable (schemaO table : String)
  | dropIndex (schemaO table : String)
  | alterTable (schemaO table : String)
  | dropTable (fst : String × String) (others : List (String × String))
  | renameTable (newSchemaO newName : String)
  | unrecognized
  deriving DecidableEq, Repr

/-- The dispatch loop of `parserSchemaTableFromDDL`: thread the resolved
`(schema, table)` pair and the have-use flag through the statement list. -/
def resolveLoop : String → String → Bool → List Stmt →
    Except DdlError (String × String × Bool)
  | schema, table, haveUse, [] => Except.ok (schema, table, haveUse)
  | schema, table, haveUse, s :: more =>
    match s with
    | Stmt.useStmt db => resolveLoop db table true more
    | Stmt.createDatabase n => resolveLoop n table haveUse more
    | Stmt.dropDatabase n => resolveLoop n table haveUse more
    | Stmt.truncateTable so n =>
      resolveLoop (if so.length ≠ 0 then so else schema) n haveUse more
    | Stmt.createIndex so n =>
      resolveLoop (if so.length ≠ 0 then so else schema) n haveUse more
    | Stmt.createTable so n =>
      resolveLoop (if so.length ≠ 0 then so else schema) n haveUse more
    | Stmt.dropIndex so n =>
      resolveLoop (if so.length ≠ 0 then so else schema) n haveUse more
    | Stmt.alterTable so n =>
      resolveLoop (if so.length ≠ 0 then so else schema) n haveUse more
    | Stmt.dropTable fst _ =>
      resolveLoop (if fst.1.length ≠ 0 then fst.1 else schema) fst.2 haveUse more
    | Stmt.renameTable so n =>
      resolveLoop (if so.length ≠ 0 then so else schema) n haveUse more
    | Stmt.unrecognized => Except.error DdlError.unknownDDLType

/-- Go `parserSchemaTableFromDDL` after the external parse: run the dispatch
loop, then check the statement count (`2` with a `use` statement, else `1`). -/
def parserSchemaTableFromDDL (stmts : List Stmt) :
    Except DdlError (String × String) :=
  match resolveLoop "" "" false stmts with
  | Except.error e => Except.error e
  | Except.ok (schema, table, haveUse) =>
    if haveUse then
      if stmts.length ≠ 2 then Except.error DdlError.invalidDDL
      else Except.ok (schema, table)
    else
      if stmts.length ≠ 1 then Except.error DdlError.invalidDDL
      else Except.ok (schema, table)

/-- Test for the `use` statement shape. -/
def isUseStmt : Stmt → Bool
  | Stmt.useStmt _ => true
  | _ => false

/-- Test for a recognized statement shape (everything except the `default`
branch). -/
def isRecognizedStmt : Stmt → Bool
  | Stmt.unrecognized => false
  | _ => true

/-- Batch shapes the claim allows, following its words: exactly one
recognized statement, or a `use` statement followed by exactly one other
recognized statement. -/
def claimedBatchShape : List Stmt → Bool
  | [s] => isRecognizedStmt s
  | [s1, s2] => isUseStmt s1 && isRecognizedStmt s2
  | _ => false

theorem resolveLoop_ok (stmts : List Stmt) : ∀ (schema table : String)
    (hu : Bool) (schema' table' : String) (hu' : Bool),
    resolveLoop schema table hu stmts = Except.ok (schema', table', hu') →
    hu' = (hu || stmts.any isUseStmt)
    ∧ ∀ s ∈ stmts, isRecognizedStmt s = true := by
  induction stmts with
  | nil =>
    intro schema table hu schema' table' hu' h
    obtain ⟨rfl, rfl, rfl⟩ :
        schema = schema' ∧ table = table' ∧ hu = hu' := by
      simpa [resolveLoop] using h
    simp
  | cons s more ih =>
    intro schema table hu schema' table' hu' h
    cases s <;> simp only [resolveLoop] at h
    case unrecognized => exact absurd h (by simp)
    all_goals
      obtain ⟨h1, h2⟩ := ih _ _ _ _ _ _ h
      subst h1
      refine ⟨by simp [List.any_cons, isUseStmt], ?_⟩
      intro t ht
      rcases List.mem_cons.mp ht with rfl | hm
      · rfl
      · exact h2 t hm

/-- Claim C6 counterexample: the batch "`drop database d`; `use a`" is two
statements with the `use` in second position — not one statement, and not a
`use` followed by another statement — yet resolution succeeds, returning the
schema of the `use`. -/
theorem parserSchemaTable_shape_counterexample :
    parserSchemaTableFromDDL [Stmt.dropDatabase "d", Stmt.useStmt "a"] =
      Except.ok ("a", "")
    ∧ claimedBatchShape [Stmt.dropDatabase "d", Stmt.useStmt "a"] = false :=
  ⟨rfl, rfl⟩

/-- Claim C6 (amended): resolution succeeds only when every statement is
recognized and either the batch is exactly one statement with no `use` in it,
or exactly two statements of which at least one is a `use` (the `use` need
not come first). -/
theorem parserSchemaTable_count_spec (stmts : List Stmt) (r : String × String)
    (h : parserSchemaTableFromDDL stmts = Except.ok r) :
    (∀ s ∈ stmts, isRecognizedStmt s = true)
    ∧ ((stmts.any isUseStmt = false ∧ stmts.length = 1)
      ∨ (stmts.any isUseStmt = true ∧ stmts.length = 2)) := by
  unfold parserSchemaTableFromDDL at h
  cases hr : resolveLoop "" "" false stmts with
  | error e => rw [hr] at h; exact absurd h (by simp)
  | ok trip =>
    rw [hr] at h
    obtain ⟨schema, table, hu⟩ := trip
    obtain ⟨h1, h2⟩ := resolveLoop_ok stmts "" "" false schema table hu hr
    simp only [Bool.false_or] at h1
    refine ⟨h2, ?_⟩
    cases hu with
    | false =>
      simp only [Bool.false_eq_true, if_false] at h
      by_cases hl : stmts.length = 1
      · exact Or.inl ⟨h1.symm, hl⟩
      · rw [if_pos hl] at h
        exact absurd h (by simp)
    | true =>
      simp only [if_true] at h
      by_cases hl : stmts.length = 2
      · exact Or.inr ⟨h1.symm, hl⟩
      · rw [if_pos hl] at h
        exact absurd h (by simp)

/-- Claim C6 witness for the amended statement: a single `create table`
batch resolves and falls in the one-statement case. -/
theorem parserSchemaTable_count_spec_witness :
    parserSchemaTableFromDDL [Stmt.createTable "" "t"] = Except.ok ("", "t")
    ∧ ((∀ s ∈ [Stmt.createTable "" "t"], isRecognizedStmt s = true)
      ∧ (([Stmt.createTable "" "t"].any isUseStmt = false
          ∧ ([Stmt.createTable "" "t"] : List Stmt).length = 1)
        ∨ ([Stmt.createTable "" "t"].any isUseStmt = true
          ∧ ([Stmt.createTable "" "t"] : List Stmt).length = 2))) :=
  ⟨rfl, parserSchemaTable_count_spec [Stmt.createTable "" "t"] ("", "t") rfl⟩

/-- Claim C8: the job filter admits an event (does not skip it) exactly when
the event is marked synced or done; every other job state is skipped. -/
theorem skipJob_admits_iff (job : Job) :
    skipJob job = false ↔
      (job.state = JobState.synced ∨ job.state = JobState.done) := by
  cases hj : job.state <;> simp [skipJob, isSynced, isDone, hj]

/-- Capability interface of the scratch relational engine together with the
external SQL parser front end (both external collaborators): a state type
`σ`, raw statement execution returning the next engine state and an optional
error message, the row sets of the two introspection views for a
`(schema, table)` pair, and the parser producing statement lists. -/
structure Engine (σ : Type) where
  parse : String → Except String (List Stmt)
  exec : σ → String → σ × Option String
  colRows : σ → String → String → List (String × String)
  statRows : σ → String → String → List (Nat × String × Nat × String)

/-- The Table Info Cache, Go's `tableInfos sync.Map`. -/
abbrev Cache : Type := List ((String × String) × tableInfo)

/-- Modelled from the spec: `quoteSchema` is defined in a file of this
repository outside `src/pitr`; the spec keys the Table Info Cache by the
`(schema, table)` pair, so the key is modelled as the pair itself. -/
def quoteSchema (schema table : String) : String × String := (schema, table)

/-- Go `ExecuteDDL`: empty statements succeed immediately; otherwise resolve
`(schema, table)` from the text, execute against the engine, apply the
three-condition recovery policy, and on success re-introspect and overwrite
the cache entry (skipping the write when introspection reports the table
absent).  The unbounded recursion of the source is bounded by explicit fuel,
consumed only at the two retrying branches; every theorem below holds for
every fuel value. -/
def ExecuteDDL {σ : Type} (eng : Engine σ) (fuel : Nat) (schema ddl : String)
    (st : σ) (cache : Cache) : σ × Except DdlError Cache :=
  if ddl.length = 0 then (st, Except.ok cache)
  else
    match eng.parse ddl with
    | Except.error m => (st, Except.error (DdlError.parseErr m))
    | Except.ok stmts =>
      match parserSchemaTableFromDDL stmts with
      | Except.error e => (st, Except.error e)
      | Except.ok (schemaInDDL, table) =>
        let schema1 := if schema.length = 0 then schemaInDDL else schema
        match eng.exec st ddl with
        | (st1, some msg) =>
          if strContains msg "Unknown database" then
            match fuel with
            | 0 => (st1, Except.error DdlError.outOfFuel)
            | fuel' + 1 =>
              match ExecuteDDL eng fuel' schema1
                  ("create database if not exists `" ++ schema1 ++ "`")
                  st1 cache with
              | (st2, Except.error e) => (st2, Except.error e)
              | (st2, Except.ok cache2) =>
                ExecuteDDL eng fuel' schema1 ddl st2 cache2
          else if strContains msg "No database selected" then
            if schema1.length ≠ 0 then
              match fuel with
              | 0 => (st1, Except.error DdlError.outOfFuel)
              | fuel' + 1 =>
                ExecuteDDL eng fuel' schema1
                  ("use " ++ schema1 ++ "; " ++ ddl) st1 cache
            else (st1, Except.error (DdlError.execErr msg))
          else if strContains msg "already exists" then (st1, Except.ok cache)
          else (st1, Except.error (DdlError.execErr msg))
        | (st1, Option.none) =>
          match getTableInfo (eng.colRows st1 schema1 table)
              (eng.statRows st1 schema1 table) schema1 table with
          | Except.error e =>
            if e = DdlError.tableNotExist then (st1, Except.ok cache)
            else (st1, Except.error e)
          | Except.ok info =>
            (st1, Except.ok (mapInsert cache (quoteSchema schema1 table) info))

/-- Claim C9: an empty statement returns success at once — the engine state,
the cache and (trivially) the catalog are untouched, for every engine, fuel
and schema hint. -/
theorem executeDDL_empty_noop {σ : Type} (eng : Engine σ) (fuel : Nat)
    (schema : String) (st : σ) (cache : Cache) :
    ExecuteDDL eng fuel schema "" st cache = (st, Except.ok cache) := by
  unfold ExecuteDDL
  simp

/-- Claim C7: when the statement's execution fails with an
"object already exists" condition (an error message containing
`already exists` and neither of the two retried substrings), `ExecuteDDL`
returns no error and the cache exactly as given — no introspection, no cache
write. -/
theorem executeDDL_alreadyExists_noop {σ : Type} (eng : Engine σ)
    (fuel : Nat) (schema ddl : String) (st st1 : σ) (cache : Cache)
    (stmts : List Stmt) (r : String × String) (msg : String)
    (hddl : ddl.length ≠ 0)
    (hp : eng.parse ddl = Except.ok stmts)
    (hr : parserSchemaTableFromDDL stmts = Except.ok r)
    (hx : eng.exec st ddl = (st1, some msg))
    (h1 : strContains msg "Unknown database" = false)
    (h2 : strContains msg "No database selected" = false)
    (h3 : strContains msg "already exists" = true) :
    ExecuteDDL eng fuel schema ddl st cache = (st1, Except.ok cache) := by
  unfold ExecuteDDL
  obtain ⟨schemaInDDL, table⟩ := r
  simp [hddl, hp, hr, hx, h1, h2, h3]

/-- Claim C7 witness: a unit-state engine whose execution always reports
`already exists`; executing `create table t` with a pre-populated cache
returns success and the identical cache, at fuel 0. -/
theorem executeDDL_alreadyExists_noop_witness :
    ("create table t" : String).length ≠ 0
    ∧ strContains "already exists" "Unknown database" = false
    ∧ strContains "already exists" "No database selected" = false
    ∧ strContains "already exists" "already exists" = true
    ∧ ExecuteDDL
        (⟨fun _ => Except.ok [Stmt.createTable "" "t"],
          fun st _ => (st, some "already exists"),
          fun _ _ _ => [], fun _ _ _ => []⟩ : Engine Unit)
        0 "db" "create table t" ()
        [(("db", "t"), ⟨"db", "t", ["id"], Option.none, []⟩)] =
      ((), Except.ok [(("db", "t"), ⟨"db", "t", ["id"], Option.none, []⟩)]) :=
  ⟨by decide, by decide, by decide, by decide,
   executeDDL_alreadyExists_noop
     (⟨fun _ => Except.ok [Stmt.createTable "" "t"],
       fun st _ => (st, some "already exists"),
       fun _ _ _ => [], fun _ _ _ => []⟩ : Engine Unit)
     0 "db" "create table t" () ()
     [(("db", "t"), ⟨"db", "t", ["id"], Option.none, []⟩)]
     [Stmt.createTable "" "t"] ("", "t") "already exists"
     (by decide) rfl rfl rfl (by decide) (by decide) (by decide)⟩

end PITR
